import Mathlib

/-!
Verification of the `hf` adaptor package (src/hf/adaptor.go): a shallow
embedding of its data model, the bounded-retry request sender, the chat and
QnA adaptors and their response extractors, together with theorems settling
the specification claims about them.

The JSON encode/decode facility and the HTTP transport are external
collaborators of the library (spec §6); they are modelled here by a `Json`
value type (the body of a request/response after syntactic parsing) and by
an attempt environment `Nat → Attempt β` giving the transport's outcome of
each successive HTTP attempt.  Decoding of a `Json` value into the Go
structs follows the field tags declared in the source and the documented
semantics of Go's `encoding/json` (unknown fields ignored, absent or null
fields yield the zero value, type mismatches fail).
-/

namespace HfAdaptor

/-- A JSON value, the interchange form produced by the external JSON
facility.  Numbers are carried exactly as rationals. -/
inductive Json where
  | null
  | bool (b : Bool)
  | num (q : Rat)
  | str (s : String)
  | arr (elems : List Json)
  | obj (fields : List (String × Json))
deriving Repr

/-- `FunctionCall.Function` of the source: the inner object of a tool call,
with `description` an untyped (`interface\x7b\x7d`) field kept as raw JSON. -/
structure FunctionCallFunction where
  description : Json
  name : String
  arguments : String
deriving Repr

/-- Zero value of `FunctionCallFunction` (Go zero: nil interface, "" strings). -/
def FunctionCallFunction.zero : FunctionCallFunction := ⟨Json.null, "", ""⟩

/-- `FunctionCall` of the source (adaptor.go:94-102). -/
structure FunctionCall where
  id : String
  type : String
  function : FunctionCallFunction
deriving Repr

/-- Zero value of `FunctionCall`. -/
def FunctionCall.zero : FunctionCall := ⟨"", "", FunctionCallFunction.zero⟩

/-- `Message` of the source (adaptor.go:23-27): role, content, and an
optional attached function call (`*FunctionCall`, nil modelled as `none`). -/
structure Message where
  role : String
  content : String
  functionCall : Option FunctionCall
deriving Repr

/-- `ToolFunctionParameterProperties` of the source (adaptor.go:35-38). -/
structure ToolFunctionParameterProperties where
  type : String
  description : String
deriving Repr, DecidableEq

/-- `ToolFunctionParameters` of the source (adaptor.go:40-45).  `Properties`
is a Go map modelled as an association list with overwrite-on-insert. -/
structure ToolFunctionParameters where
  type : String
  properties : List (String × ToolFunctionParameterProperties)
  required : List String
  additionalProperties : Bool
deriving Repr, DecidableEq

/-- `Function` of the source (adaptor.go:47-51): the descriptive function
object inside a `Tool`; `Parameters` is a nullable pointer. -/
structure Function where
  name : String
  description : String
  parameters : Option ToolFunctionParameters
deriving Repr, DecidableEq

/-- `Tool` of the source (adaptor.go:52-55). -/
structure Tool where
  type : String
  function : Function
deriving Repr, DecidableEq

/-- `AIRequest` of the source (adaptor.go:29-33).  `Tools` is a Go slice
with tag `tools,omitempty`; `none` models a nil slice. -/
structure AIRequest where
  model : String
  messages : List Message
  tools : Option (List Tool)
deriving Repr

/-- `ToolParameter` of the source (adaptor.go:57-62). -/
structure ToolParameter where
  name : String
  type : String
  description : String
  required : Bool
deriving Repr, DecidableEq

/-- Insertion into a Go map modelled as an association list: an existing
key is overwritten in place, a new key is appended. -/
def mapInsert (m : List (String × ToolFunctionParameterProperties)) (k : String)
    (v : ToolFunctionParameterProperties) : List (String × ToolFunctionParameterProperties) :=
  match m with
  | [] => [(k, v)]
  | (k0, v0) :: rest => if k0 = k then (k, v) :: rest else (k0, v0) :: mapInsert rest k v

/-- `NewTool` of the source (adaptor.go:64-92): builds a `Tool` of type
"function"; when `params` is non-empty it fills `Parameters` with an
"object" schema, inserting each parameter's properties in a map and
appending the names of required parameters, in loop order, to `Required`. -/
def NewTool (name : String) (description : String) (params : List ToolParameter) : Tool :=
  let function : Function := ⟨name, description, none⟩
  if params.length > 0 then
    let properties := params.foldl (fun acc p => mapInsert acc p.name ⟨p.type, p.description⟩) []
    let required := params.foldl (fun acc p => if p.required then acc ++ [p.name] else acc) []
    ⟨"function", ⟨name, description, some ⟨"object", properties, required, false⟩⟩⟩
  else
    ⟨"function", function⟩

/-- The `required` array as it appears in the serialized JSON of a `Tool`:
`Parameters` is a nullable pointer (absent when nil) and `Required` carries
the `omitempty` tag, so an empty slice is omitted from the payload. -/
def Tool.serializedRequired (t : Tool) : Option (List String) :=
  match t.function.parameters with
  | none => none
  | some ps => if ps.required.isEmpty then none else some ps.required

/-! ### Base request sender -/

/-- Outcome of one HTTP attempt as produced by the external transport:
either a transport-level error from `client.Do`, or a response with a
status code and a body. -/
inductive Attempt (β : Type) where
  | transportErr (msg : String)
  | response (status : Nat) (body : β)

/-- Result of `sendWithRetry`: the returned value or error, the number of
HTTP requests actually performed, and the response bodies read into the
diagnostic log (the `log.Println` on a non-200, non-503 status). -/
structure SendOutcome (β : Type) where
  result : Except String β
  attemptsMade : Nat
  logged : List β
deriving Repr

/-- The retry loop body of `sendWithRetry` (adaptor.go:122-162).
`remaining` is the number of loop iterations left, `made` the number of
attempts already performed (the loop index).  Each iteration performs one
POST: a transport error returns immediately; a 503 discards the body and
retries; any other non-200 status reads and logs the body and fails with an
error naming the status; a 200 returns the body. -/
def sendWithRetryGo {β : Type} (attempts : Nat → Attempt β) :
    Nat → Nat → SendOutcome β
  | 0, made => ⟨Except.error "Num retries exceeded", made, []⟩
  | remaining + 1, made =>
    match attempts made with
    | Attempt.transportErr m =>
        ⟨Except.error ("error sending request: " ++ m), made + 1, []⟩
    | Attempt.response status body =>
        if status = 503 then
          sendWithRetryGo attempts remaining (made + 1)
        else if status ≠ 200 then
          ⟨Except.error ("API request failed with status " ++ toString status), made + 1, [body]⟩
        else
          ⟨Except.ok body, made + 1, []⟩

/-- `sendWithRetry` of the source: runs the loop `for i := 0; i < maxretries;
i++`, so a non-positive retry budget performs zero iterations. -/
def sendWithRetry {β : Type} (maxretries : Int) (attempts : Nat → Attempt β) : SendOutcome β :=
  sendWithRetryGo attempts maxretries.toNat 0

/-! ### JSON decoding into the response structs

These definitions model Go's `encoding/json` applied to the struct
definitions of the source: a field is looked up by its tag (the last
occurrence of a duplicated key wins), an unknown field is ignored, an
absent or `null` field leaves the zero value, and a type mismatch fails
the whole decode. -/

/-- Look up a key in a JSON object's field list; with duplicated keys the
later occurrence wins, as in Go's sequential decoding. -/
def getField (fields : List (String × Json)) (key : String) : Option Json :=
  (fields.reverse.find? (fun p => p.1 == key)).map Prod.snd

/-- Decode a string-typed struct field: absent or null means the zero value
"", a JSON string is taken verbatim, anything else is a type mismatch. -/
def decodeStringField (fields : List (String × Json)) (key : String) : Except String String :=
  match getField fields key with
  | none => Except.ok ""
  | some Json.null => Except.ok ""
  | some (Json.str s) => Except.ok s
  | some _ => Except.error ("json: cannot unmarshal value into string field " ++ key)

/-- Decode an int-typed struct field: absent or null means 0, a JSON number
must be integral, anything else is a type mismatch. -/
def decodeIntField (fields : List (String × Json)) (key : String) : Except String Int :=
  match getField fields key with
  | none => Except.ok 0
  | some Json.null => Except.ok 0
  | some (Json.num q) =>
      if q.den = 1 then Except.ok q.num
      else Except.error ("json: cannot unmarshal number into int field " ++ key)
  | some _ => Except.error ("json: cannot unmarshal value into int field " ++ key)

/-- Decode a float-typed struct field (`float32 score`): absent or null
means 0, a JSON number is taken, anything else is a type mismatch. -/
def decodeFloatField (fields : List (String × Json)) (key : String) : Except String Rat :=
  match getField fields key with
  | none => Except.ok 0
  | some Json.null => Except.ok 0
  | some (Json.num q) => Except.ok q
  | some _ => Except.error ("json: cannot unmarshal value into float field " ++ key)

/-- Decode an `interface\x7b\x7d` field: the raw JSON value, `null` when
absent. -/
def decodeAnyField (fields : List (String × Json)) (key : String) : Json :=
  (getField fields key).getD Json.null

/-- Decode every element of a JSON array in order, aborting on the first
failing element, as Go does when unmarshalling into a slice. -/
def decodeElems {α : Type} (dec : Json → Except String α) : List Json → Except String (List α)
  | [] => Except.ok []
  | x :: rest =>
    match dec x with
    | Except.error e => Except.error e
    | Except.ok a =>
      match decodeElems dec rest with
      | Except.error e => Except.error e
      | Except.ok as => Except.ok (a :: as)

/-- Decode the inner `function` object of a `FunctionCall`. -/
def decodeFunctionCallFunction (j : Json) : Except String FunctionCallFunction :=
  match j with
  | Json.null => Except.ok FunctionCallFunction.zero
  | Json.obj fields => do
      let name ← decodeStringField fields "name"
      let arguments ← decodeStringField fields "arguments"
      Except.ok ⟨decodeAnyField fields "description", name, arguments⟩
  | _ => Except.error "json: cannot unmarshal value into FunctionCall function"

/-- Decode one `FunctionCall` (adaptor.go:94-102). -/
def decodeFunctionCall (j : Json) : Except String FunctionCall :=
  match j with
  | Json.null => Except.ok FunctionCall.zero
  | Json.obj fields => do
      let id ← decodeStringField fields "id"
      let ty ← decodeStringField fields "type"
      let fn ←
        match getField fields "function" with
        | none => Except.ok FunctionCallFunction.zero
        | some fj => decodeFunctionCallFunction fj
      Except.ok ⟨id, ty, fn⟩
  | _ => Except.error "json: cannot unmarshal value into FunctionCall"

/-- The message object inside a response choice (adaptor.go:253-257): role,
content, and `tool_calls` — a nilable slice, `none` modelling the nil slice
that an absent or null field leaves, `some []` a present empty array.  The
struct declares no legacy `function_call` field, so such a key is ignored
by the decoder like any unknown field. -/
structure ResponseMessage where
  role : String
  content : String
  toolCalls : Option (List FunctionCall)
deriving Repr

/-- Zero value of `ResponseMessage`. -/
def ResponseMessage.zero : ResponseMessage := ⟨"", "", none⟩

/-- Decode the `tool_calls` field of a response message. -/
def decodeToolCallsField (fields : List (String × Json)) : Except String (Option (List FunctionCall)) :=
  match getField fields "tool_calls" with
  | none => Except.ok none
  | some Json.null => Except.ok none
  | some (Json.arr xs) =>
      match decodeElems decodeFunctionCall xs with
      | Except.error e => Except.error e
      | Except.ok calls => Except.ok (some calls)
  | some _ => Except.error "json: cannot unmarshal value into tool_calls"

/-- Decode a response choice's `message`. -/
def decodeResponseMessage (j : Json) : Except String ResponseMessage :=
  match j with
  | Json.null => Except.ok ResponseMessage.zero
  | Json.obj fields => do
      let role ← decodeStringField fields "role"
      let content ← decodeStringField fields "content"
      let toolCalls ← decodeToolCallsField fields
      Except.ok ⟨role, content, toolCalls⟩
  | _ => Except.error "json: cannot unmarshal value into message"

/-- One element of the `choices` array of a `Response` (adaptor.go:251-260). -/
structure Choice where
  index : Int
  message : ResponseMessage
  logprobs : Json
  finishReason : String
deriving Repr

/-- Decode one choice. -/
def decodeChoice (j : Json) : Except String Choice :=
  match j with
  | Json.null => Except.ok ⟨0, ResponseMessage.zero, Json.null, ""⟩
  | Json.obj fields => do
      let index ← decodeIntField fields "index"
      let message ←
        match getField fields "message" with
        | none => Except.ok ResponseMessage.zero
        | some mj => decodeResponseMessage mj
      let finishReason ← decodeStringField fields "finish_reason"
      Except.ok ⟨index, message, decodeAnyField fields "logprobs", finishReason⟩
  | _ => Except.error "json: cannot unmarshal value into choice"

/-- The `usage` object of a `Response` (adaptor.go:261-265). -/
structure Usage where
  promptTokens : Int
  completionTokens : Int
  totalTokens : Int
deriving Repr, DecidableEq

/-- Zero value of `Usage`. -/
def Usage.zero : Usage := ⟨0, 0, 0⟩

/-- Decode the `usage` object. -/
def decodeUsage (j : Json) : Except String Usage :=
  match j with
  | Json.null => Except.ok Usage.zero
  | Json.obj fields => do
      let promptTokens ← decodeIntField fields "prompt_tokens"
      let completionTokens ← decodeIntField fields "completion_tokens"
      let totalTokens ← decodeIntField fields "total_tokens"
      Except.ok ⟨promptTokens, completionTokens, totalTokens⟩
  | _ => Except.error "json: cannot unmarshal value into usage"

/-- `Response` of the source (adaptor.go:245-266): the decoded chat
completion body. -/
structure Response where
  object : String
  id : String
  created : Int
  model : String
  systemFingerprint : String
  choices : List Choice
  usage : Usage
deriving Repr

/-- Decode the `choices` field: absent or null leaves the nil slice (which
the extractor only ever measures by length, so it is modelled as `[]`). -/
def decodeChoicesField (fields : List (String × Json)) : Except String (List Choice) :=
  match getField fields "choices" with
  | none => Except.ok []
  | some Json.null => Except.ok []
  | some (Json.arr xs) => decodeElems decodeChoice xs
  | some _ => Except.error "json: cannot unmarshal value into choices"

/-- Decode a whole chat `Response` from a JSON body. -/
def decodeResponse (j : Json) : Except String Response :=
  match j with
  | Json.null => Except.ok ⟨"", "", 0, "", "", [], Usage.zero⟩
  | Json.obj fields => do
      let object ← decodeStringField fields "object"
      let id ← decodeStringField fields "id"
      let created ← decodeIntField fields "created"
      let model ← decodeStringField fields "model"
      let systemFingerprint ← decodeStringField fields "system_fingerprint"
      let choices ← decodeChoicesField fields
      let usage ←
        match getField fields "usage" with
        | none => Except.ok Usage.zero
        | some uj => decodeUsage uj
      Except.ok ⟨object, id, created, model, systemFingerprint, choices, usage⟩
  | _ => Except.error "json: cannot unmarshal value into Response"

/-! ### Chat extractor -/

/-- The triple returned by an `ExtractResponse` function: content, the
nilable slice of function calls, and the nilable error. -/
abbrev ExtractTriple : Type := String × Option (List FunctionCall) × Option String

/-- `OpenAIJsonExtractor` of the source (adaptor.go:289-308): decode the
body as a `Response`; a decode failure is returned with empty content and
nil calls; an empty `choices` array fails with "no choices found in
response"; otherwise only the first choice is consulted — a non-nil
`tool_calls` slice is returned together with the content, a nil one yields
the content alone. -/
def OpenAIJsonExtractor (body : Json) : ExtractTriple :=
  match decodeResponse body with
  | Except.error e => ("", none, some e)
  | Except.ok resp =>
    match resp.choices with
    | [] => ("", none, some "no choices found in response")
    | c :: _ =>
      match c.message.toolCalls with
      | some calls => (c.message.content, some calls, none)
      | none => (c.message.content, none, none)

/-! ### Chat adaptor -/

/-- The termination mode of a chat call: a normal return of the
(content, calls, error) triple, or a `panic` raised by
`handlers.PanicOnError` / `log.Panicln` (an external helper that panics
exactly when handed a non-nil error; spec §9 records that the source
panics on these paths). -/
inductive ChatOutcome where
  | ret (content : String) (calls : Option (List FunctionCall)) (error : Option String)
  | panic (message : String)
deriving Repr

/-- `Adaptor` of the source (adaptor.go:170-176): the chat adaptor's
long-lived configuration.  `unescape` stands for the external
`html.UnescapeString`; `extractresp` is the configured extractor. -/
structure Adaptor where
  model : String
  baseinstruct : String
  maxretries : Int
  unescape : String → String
  extractresp : Json → ExtractTriple

/-- The `AIRequest` payload assembled by `sendRequestWithHistory`
(adaptor.go:206-224): a system message with the unescaped base
instruction, the history verbatim, then the new message with the given
role and unescaped text; `Tools` is assigned only from a non-nil `tools`
(assigning nothing and assigning nil coincide, so `tools` is carried
through). -/
def buildChatRequest (c : Adaptor) (message : String) (role : String)
    (history : List Message) (tools : Option (List Tool)) : AIRequest :=
  let messages : List Message :=
    [⟨"system", c.unescape c.baseinstruct, none⟩] ++ history ++ [⟨role, c.unescape message, none⟩]
  ⟨c.model, messages, tools⟩

/-- `sendRequestWithHistory` of the source (adaptor.go:206-235): build the
payload, send it with retry, `handlers.PanicOnError` any sender error
(which therefore terminates by panic, not by returning), then hand the 200
body to the configured extractor and return its triple verbatim.  The
result pairs the outbound payload with the call's outcome. -/
def Adaptor.sendRequestWithHistory (c : Adaptor) (attempts : Nat → Attempt Json)
    (message : String) (role : String) (history : List Message)
    (tools : Option (List Tool)) : AIRequest × ChatOutcome :=
  let reqData := buildChatRequest c message role history tools
  match (sendWithRetry c.maxretries attempts).result with
  | Except.error e => (reqData, ChatOutcome.panic e)
  | Except.ok body =>
    let t := c.extractresp body
    (reqData, ChatOutcome.ret t.1 t.2.1 t.2.2)

/-- `SendRequestWithHistory` (adaptor.go:237-239): user role. -/
def Adaptor.SendRequestWithHistory (c : Adaptor) (attempts : Nat → Attempt Json)
    (message : String) (history : List Message) (tools : Option (List Tool)) :
    AIRequest × ChatOutcome :=
  c.sendRequestWithHistory attempts message "user" history tools

/-- `SendSystemRequestWithHistory` (adaptor.go:241-243): system role. -/
def Adaptor.SendSystemRequestWithHistory (c : Adaptor) (attempts : Nat → Attempt Json)
    (message : String) (history : List Message) (tools : Option (List Tool)) :
    AIRequest × ChatOutcome :=
  c.sendRequestWithHistory attempts message "system" history tools

/-- `SendRequest` (adaptor.go:201-204): empty history, nil tools, user
role; the caller reads content and error from the outcome. -/
def Adaptor.SendRequest (c : Adaptor) (attempts : Nat → Attempt Json)
    (message : String) : AIRequest × ChatOutcome :=
  c.SendRequestWithHistory attempts message [] none

/-- Whether the `tools` field appears in the serialized chat payload:
`tools` carries the `omitempty` tag, so a nil or empty slice is omitted. -/
def AIRequest.toolsSerialized (r : AIRequest) : Bool :=
  match r.tools with
  | none => false
  | some ts => !ts.isEmpty

/-! ### QnA adaptor -/

/-- `QnAResponse` of the source (adaptor.go:369-374); the `float32` score
is carried as an exact rational. -/
structure QnAResponse where
  answer : String
  score : Rat
  start : Int
  stop : Int
deriving Repr, DecidableEq

/-- The canonical JSON encoding of a `QnAResponse`, used to state the
decode round-trip. -/
def encodeQnAResponse (r : QnAResponse) : Json :=
  Json.obj [("answer", Json.str r.answer), ("score", Json.num r.score),
            ("start", Json.num r.start), ("end", Json.num r.stop)]

/-- Decode one `QnAResponse` object. -/
def decodeQnAResponse (j : Json) : Except String QnAResponse :=
  match j with
  | Json.null => Except.ok ⟨"", 0, 0, 0⟩
  | Json.obj fields => do
      let answer ← decodeStringField fields "answer"
      let score ← decodeFloatField fields "score"
      let start ← decodeIntField fields "start"
      let stop ← decodeIntField fields "end"
      Except.ok ⟨answer, score, start, stop⟩
  | _ => Except.error "json: cannot unmarshal value into QnAResponse"

/-- `QnAJsonResponseExtractor` of the source (adaptor.go:381-393): the body
must be a JSON array of `QnAResponse`; anything else — an object, a
string, a number — is a decode failure, as is any element whose fields
mismatch their types. -/
def QnAJsonResponseExtractor (body : Json) : Except String (List QnAResponse) :=
  match body with
  | Json.arr xs => decodeElems decodeQnAResponse xs
  | Json.null => Except.ok []
  | _ => Except.error "json: cannot unmarshal value into array of QnAResponse"

/-- `QnAInputs` of the source (adaptor.go:347-350). -/
structure QnAInputs where
  context : String
  question : String
deriving Repr, DecidableEq

/-- `QnARequest` of the source (adaptor.go:351-354); the open parameter map
is passed through verbatim and never inspected. -/
structure QnARequest where
  inputs : QnAInputs
  parameters : Option (List (String × Json))
deriving Repr

/-- Termination mode of `SendQuestion`: a normal return of the extractor's
result, or the panic raised by `handlers.PanicOnError` on a sender error. -/
inductive QnAOutcome where
  | ret (result : Except String (List QnAResponse))
  | panic (message : String)
deriving Repr

/-- `QnAAdaptor` of the source (adaptor.go:328-332). -/
structure QnAAdaptor where
  maxretries : Int
  extractor : Json → Except String (List QnAResponse)

/-- `SendQuestion` of the source (adaptor.go:356-367): build the
`QnARequest` with the given context, question and parameter map, send it
with retry, panic on a sender error, and return the extractor's result
verbatim.  The result pairs the outbound payload with the outcome. -/
def QnAAdaptor.SendQuestion (c : QnAAdaptor) (attempts : Nat → Attempt Json)
    (context : String) (question : String) (params : Option (List (String × Json))) :
    QnARequest × QnAOutcome :=
  let req : QnARequest := ⟨⟨context, question⟩, params⟩
  match (sendWithRetry c.maxretries attempts).result with
  | Except.error e => (req, QnAOutcome.panic e)
  | Except.ok body => (req, QnAOutcome.ret (c.extractor body))

/-- Whether `needle` occurs contiguously in `hay`, on character lists. -/
def listContainsSub (needle : List Char) : List Char → Bool
  | [] => needle.isEmpty
  | c :: rest => needle.isPrefixOf (c :: rest) || listContainsSub needle rest

/-- A substring test: whether `needle` occurs contiguously in `hay`. -/
def strContainsSub (hay needle : String) : Bool :=
  listContainsSub needle.data hay.data

/-! ### Theorems -/

/-- Helper: a run in which every attempt is answered 503 consumes all its
iterations and exits with the exhaustion error, performing one request per
iteration and logging nothing. -/
theorem sendWithRetryGo_all_503 (bodies : Nat → Json) :
    ∀ (n made : Nat),
      sendWithRetryGo (fun i => Attempt.response 503 (bodies i)) n made
        = ⟨Except.error "Num retries exceeded", made + n, []⟩ := by
  intro n
  induction n with
  | zero => intro made; rfl
  | succ k ih =>
    intro made
    simp only [sendWithRetryGo, reduceIte, ih (made + 1)]
    congr 1
    omega

/-- C3: with the endpoint answering 503, 503, 200 in that order, any retry
budget of at least 3 succeeds with the final 200 body after exactly three
attempts; and with every attempt answered 503, any positive budget performs
exactly `maxretries` attempts and then fails with the retries-exceeded
error. -/
theorem retry_sequence_behaviour :
    (∀ (m : Int) (b1 b2 okBody : Json) (rest : Nat → Attempt Json), 3 ≤ m →
      sendWithRetry m (fun i =>
          if i = 0 then Attempt.response 503 b1
          else if i = 1 then Attempt.response 503 b2
          else if i = 2 then Attempt.response 200 okBody
          else rest i)
        = ⟨Except.ok okBody, 3, []⟩)
    ∧ (∀ (m : Int) (bodies : Nat → Json), 1 ≤ m →
      sendWithRetry m (fun i => Attempt.response 503 (bodies i))
        = ⟨Except.error "Num retries exceeded", m.toNat, []⟩) := by
  constructor
  · intro m b1 b2 okBody rest hm
    obtain ⟨k, hk⟩ : ∃ k, m.toNat = k + 1 + 1 + 1 := ⟨m.toNat - 3, by omega⟩
    unfold sendWithRetry
    rw [hk]
    simp [sendWithRetryGo]
  · intro m bodies _
    unfold sendWithRetry
    rw [sendWithRetryGo_all_503]
    simp

/-- Witness for `retry_sequence_behaviour` at a budget of 3. -/
theorem retry_sequence_behaviour_witness :
    sendWithRetry 3 (fun i =>
        if i = 0 then Attempt.response 503 Json.null
        else if i = 1 then Attempt.response 503 Json.null
        else if i = 2 then Attempt.response 200 (Json.str "done")
        else Attempt.response 503 Json.null)
      = ⟨Except.ok (Json.str "done"), 3, []⟩
    ∧ sendWithRetry 3 (fun _ => Attempt.response 503 Json.null)
      = ⟨Except.error "Num retries exceeded", 3, []⟩ :=
  ⟨retry_sequence_behaviour.1 3 Json.null Json.null (Json.str "done")
      (fun _ => Attempt.response 503 Json.null) (by decide),
   retry_sequence_behaviour.2 3 (fun _ => Json.null) (by decide)⟩

/-- C5 (amended): a response with a non-200, non-503 status makes
`sendWithRetry` fail after exactly one attempt with an error naming the
status code; the response body is read into the diagnostic log but is not
part of the returned error. -/
theorem non200_fails_immediately :
    ∀ (m : Int) (s : Nat) (b : Json) (rest : Nat → Attempt Json),
      1 ≤ m → s ≠ 200 → s ≠ 503 →
      sendWithRetry m (fun i => if i = 0 then Attempt.response s b else rest i)
        = ⟨Except.error ("API request failed with status " ++ toString s), 1, [b]⟩ := by
  intro m s b rest hm h200 h503
  obtain ⟨k, hk⟩ : ∃ k, m.toNat = k + 1 := ⟨m.toNat - 1, by omega⟩
  unfold sendWithRetry
  rw [hk]
  simp [sendWithRetryGo, h200, h503]

/-- Witness for `non200_fails_immediately` at status 404. -/
theorem non200_fails_immediately_witness :
    sendWithRetry 5 (fun i => if i = 0 then Attempt.response 404 (Json.str "nf")
        else Attempt.response 503 Json.null)
      = ⟨Except.error ("API request failed with status " ++ toString 404), 1, [Json.str "nf"]⟩ :=
  non200_fails_immediately 5 404 (Json.str "nf")
    (fun _ => Attempt.response 503 Json.null) (by decide) (by decide) (by decide)

/-- C5 counterexample: at status 404 with body "notfound" the returned
error is exactly "API request failed with status 404" — the response body
is not surfaced as part of the error (it is only logged). -/
theorem non200_error_omits_body :
    (sendWithRetry 5 (fun _ => Attempt.response 404 (Json.str "notfound"))).result
        = Except.error "API request failed with status 404"
    ∧ strContainsSub "API request failed with status 404" "notfound" = false := by
  constructor
  · rfl
  · decide

/-- C10: with a non-positive retry budget the loop body never runs:
`sendWithRetry` fails with the retries-exceeded error after zero HTTP
attempts, and every chat or QnA operation built on it fails the same way
(terminating in the panic that `handlers.PanicOnError` raises on the
sender's error) without any request being sent. -/
theorem nonpositive_retries_no_attempts :
    ∀ (m : Int), m ≤ 0 →
      (∀ (attempts : Nat → Attempt Json),
        sendWithRetry m attempts = ⟨Except.error "Num retries exceeded", 0, []⟩)
      ∧ (∀ (c : Adaptor) (attempts : Nat → Attempt Json) msg role hist tools,
          c.maxretries = m →
          (c.sendRequestWithHistory attempts msg role hist tools).2
            = ChatOutcome.panic "Num retries exceeded")
      ∧ (∀ (q : QnAAdaptor) (attempts : Nat → Attempt Json) ctx ques params,
          q.maxretries = m →
          (q.SendQuestion attempts ctx ques params).2
            = QnAOutcome.panic "Num retries exceeded") := by
  intro m hm
  have hsend : ∀ (attempts : Nat → Attempt Json),
      sendWithRetry m attempts = ⟨Except.error "Num retries exceeded", 0, []⟩ := by
    intro attempts
    unfold sendWithRetry
    rw [Int.toNat_of_nonpos hm]
    rfl
  refine ⟨hsend, ?_, ?_⟩
  · intro c attempts msg role hist tools hc
    simp only [Adaptor.sendRequestWithHistory, hc, hsend attempts]
  · intro q attempts ctx ques params hq
    simp only [QnAAdaptor.SendQuestion, hq, hsend attempts]

/-- Witness for `nonpositive_retries_no_attempts` at budget -1. -/
theorem nonpositive_retries_no_attempts_witness :
    sendWithRetry (-1) (fun _ => Attempt.response 200 Json.null)
        = ⟨Except.error "Num retries exceeded", 0, []⟩
    ∧ ((⟨"tgi", "base", -1, id, OpenAIJsonExtractor⟩ : Adaptor).sendRequestWithHistory
        (fun _ => Attempt.response 200 Json.null) "hi" "user" [] none).2
        = ChatOutcome.panic "Num retries exceeded"
    ∧ ((⟨-1, QnAJsonResponseExtractor⟩ : QnAAdaptor).SendQuestion
        (fun _ => Attempt.response 200 Json.null) "ctx" "q" none).2
        = QnAOutcome.panic "Num retries exceeded" :=
  ⟨(nonpositive_retries_no_attempts (-1) (by decide)).1 _,
   (nonpositive_retries_no_attempts (-1) (by decide)).2.1 _ _ "hi" "user" [] none rfl,
   (nonpositive_retries_no_attempts (-1) (by decide)).2.2 _ _ "ctx" "q" none rfl⟩

/-- Helper: whenever `OpenAIJsonExtractor` reports an error, it reports it
with empty content and a nil call collection — no partial results. -/
theorem openAIJsonExtractor_error_shape (body : Json) (e : String)
    (h : (OpenAIJsonExtractor body).2.2 = some e) :
    OpenAIJsonExtractor body = ("", none, some e) := by
  cases hdec : decodeResponse body with
  | error e0 =>
    simp only [OpenAIJsonExtractor, hdec, Option.some.injEq] at h ⊢
    subst h
    rfl
  | ok resp =>
    cases hch : resp.choices with
    | nil =>
      simp only [OpenAIJsonExtractor, hdec, hch, Option.some.injEq] at h ⊢
      subst h
      rfl
    | cons c rest =>
      cases htc : c.message.toolCalls with
      | none => simp [OpenAIJsonExtractor, hdec, hch, htc] at h
      | some calls => simp [OpenAIJsonExtractor, hdec, hch, htc] at h

/-- C1 (amended): any Base Sender failure aborts a chat call or a QnA call
by the panic that `handlers.PanicOnError` raises with the sender's error
(the failure is not returned to the caller as an error value); an Extractor
decode failure is returned to the caller as an error value with no partial
results (empty content and nil calls for chat, an error-only result for
QnA). -/
theorem chat_and_qna_error_propagation :
    (∀ (c : Adaptor) (attempts : Nat → Attempt Json) msg role hist tools (e : String),
      (sendWithRetry c.maxretries attempts).result = Except.error e →
      (c.sendRequestWithHistory attempts msg role hist tools).2 = ChatOutcome.panic e)
    ∧ (∀ (c : Adaptor) (attempts : Nat → Attempt Json) msg role hist tools
        (body : Json) (e : String),
      c.extractresp = OpenAIJsonExtractor →
      (sendWithRetry c.maxretries attempts).result = Except.ok body →
      (OpenAIJsonExtractor body).2.2 = some e →
      (c.sendRequestWithHistory attempts msg role hist tools).2
        = ChatOutcome.ret "" none (some e))
    ∧ (∀ (q : QnAAdaptor) (attempts : Nat → Attempt Json) ctx ques params (e : String),
      (sendWithRetry q.maxretries attempts).result = Except.error e →
      (q.SendQuestion attempts ctx ques params).2 = QnAOutcome.panic e)
    ∧ (∀ (q : QnAAdaptor) (attempts : Nat → Attempt Json) ctx ques params
        (body : Json) (e : String),
      q.extractor = QnAJsonResponseExtractor →
      (sendWithRetry q.maxretries attempts).result = Except.ok body →
      QnAJsonResponseExtractor body = Except.error e →
      (q.SendQuestion attempts ctx ques params).2
        = QnAOutcome.ret (Except.error e)) := by
  refine ⟨?_, ?_, ?_, ?_⟩
  · intro c attempts msg role hist tools e hs
    simp only [Adaptor.sendRequestWithHistory, hs]
  · intro c attempts msg role hist tools body e hex hs herr
    have hfull : OpenAIJsonExtractor body = ("", none, some e) :=
      openAIJsonExtractor_error_shape body e herr
    simp only [Adaptor.sendRequestWithHistory, hs, hex, hfull]
  · intro q attempts ctx ques params e hs
    simp only [QnAAdaptor.SendQuestion, hs]
  · intro q attempts ctx ques params body e hex hs herr
    simp only [QnAAdaptor.SendQuestion, hs, hex, herr]

/-- Witness for `chat_and_qna_error_propagation`: a transport failure
panics the chat and QnA calls, and decode failures (a body with no choices,
a non-array QnA body) come back as error values with no partial results. -/
theorem chat_and_qna_error_propagation_witness :
    ((⟨"tgi", "base", 1, id, OpenAIJsonExtractor⟩ : Adaptor).sendRequestWithHistory
        (fun _ => Attempt.transportErr "refused") "hi" "user" [] none).2
      = ChatOutcome.panic "error sending request: refused"
    ∧ ((⟨"tgi", "base", 1, id, OpenAIJsonExtractor⟩ : Adaptor).sendRequestWithHistory
        (fun _ => Attempt.response 200 (Json.obj [("choices", Json.arr [])])) "hi" "user" [] none).2
      = ChatOutcome.ret "" none (some "no choices found in response")
    ∧ ((⟨1, QnAJsonResponseExtractor⟩ : QnAAdaptor).SendQuestion
        (fun _ => Attempt.transportErr "refused") "ctx" "q" none).2
      = QnAOutcome.panic "error sending request: refused"
    ∧ ((⟨1, QnAJsonResponseExtractor⟩ : QnAAdaptor).SendQuestion
        (fun _ => Attempt.response 200 (Json.obj [("answer", Json.str "x")])) "ctx" "q" none).2
      = QnAOutcome.ret (Except.error "json: cannot unmarshal value into array of QnAResponse") :=
  ⟨chat_and_qna_error_propagation.1 _ _ "hi" "user" [] none _ rfl,
   chat_and_qna_error_propagation.2.1 _ _ "hi" "user" [] none
     (Json.obj [("choices", Json.arr [])]) _ rfl rfl rfl,
   chat_and_qna_error_propagation.2.2.1 _ _ "ctx" "q" none _ rfl,
   chat_and_qna_error_propagation.2.2.2 _ _ "ctx" "q" none
     (Json.obj [("answer", Json.str "x")]) _ rfl rfl rfl⟩

/-- C1 counterexample: a Base Sender failure (here a transport error)
terminates the chat call by a panic carrying the sender's error, not by
returning an error value to the caller. -/
theorem chat_base_sender_failure_panics :
    ((⟨"tgi", "base", 1, id, OpenAIJsonExtractor⟩ : Adaptor).sendRequestWithHistory
        (fun _ => Attempt.transportErr "connection refused") "hello" "user" [] none).2
      = ChatOutcome.panic "error sending request: connection refused" := rfl

/-- A chat response body whose first (and only) choice carries a single
legacy `function_call` field and no `tool_calls` array. -/
def legacyFunctionCallBody (role content name args : String) : Json :=
  Json.obj [("choices", Json.arr [Json.obj [("message",
    Json.obj [("role", Json.str role), ("content", Json.str content),
      ("function_call", Json.obj [("name", Json.str name),
        ("arguments", Json.str args)])])]])]

/-- C2 counterexample: a body whose first choice carries only a legacy
`function_call` (no `tool_calls`) decodes without error, but the extractor
returns no function calls — not a one-element collection: the `Response`
struct declares no `function_call` field, so the legacy field is ignored as
an unknown key. -/
theorem legacy_function_call_not_returned :
    OpenAIJsonExtractor
        (legacyFunctionCallBody "assistant" "hello" "get_user_weather" "loc London")
      = ("hello", none, none) := rfl

/-- C2 (amended): for every chat response body whose first choice carries a
single legacy `function_call` field and no `tool_calls` array, the chat
extractor ignores the legacy field: it decodes the body successfully and
returns the choice's content with a nil call collection and no error,
unlike a one-element modern `tool_calls` array, which is returned as a
one-element collection. -/
theorem legacy_function_call_ignored :
    ∀ (role content name args : String),
      OpenAIJsonExtractor (legacyFunctionCallBody role content name args)
        = (content, none, none) := by
  intro role content name args
  rfl

/-- C6: a chat response body that decodes with an empty `choices` array
makes the extractor fail with the "no choices found in response" error,
returning no content and no function calls. -/
theorem empty_choices_error :
    ∀ (body : Json) (resp : Response),
      decodeResponse body = Except.ok resp → resp.choices = [] →
      OpenAIJsonExtractor body = ("", none, some "no choices found in response") := by
  intro body resp hdec hch
  simp only [OpenAIJsonExtractor, hdec, hch]

/-- Witness for `empty_choices_error` at the body with an explicit empty
choices array. -/
theorem empty_choices_error_witness :
    OpenAIJsonExtractor (Json.obj [("choices", Json.arr [])])
      = ("", none, some "no choices found in response") :=
  empty_choices_error (Json.obj [("choices", Json.arr [])])
    ⟨"", "", 0, "", "", [], Usage.zero⟩ rfl rfl

/-- C7: on a body that decodes with a non-empty `choices` array, only the
first choice is consulted: a non-nil `tool_calls` collection is returned in
order, verbatim, together with the choice's content and no error; a first
choice with a nil collection yields its content with a nil collection and
no error.  Later choices do not influence the result. -/
theorem first_choice_extraction :
    ∀ (body : Json) (resp : Response) (c : Choice) (rest : List Choice),
      decodeResponse body = Except.ok resp → resp.choices = c :: rest →
      (∀ calls, c.message.toolCalls = some calls →
        OpenAIJsonExtractor body = (c.message.content, some calls, none))
      ∧ (c.message.toolCalls = none →
        OpenAIJsonExtractor body = (c.message.content, none, none)) := by
  intro body resp c rest hdec hch
  constructor
  · intro calls htc
    simp only [OpenAIJsonExtractor, hdec, hch, htc]
  · intro htc
    simp only [OpenAIJsonExtractor, hdec, hch, htc]

/-- A body with one tool call on its first choice, for the C7 witness. -/
def toolCallChoiceBody : Json :=
  Json.obj [("choices", Json.arr [Json.obj [("message",
    Json.obj [("content", Json.str "c"), ("tool_calls", Json.arr [Json.obj
      [("id", Json.str "call_123"), ("type", Json.str "function"),
       ("function", Json.obj [("name", Json.str "get_user_weather"),
         ("arguments", Json.str "loc London")])]])])]])]

/-- A body with no tool calls on its first choice, for the C7 witness. -/
def plainChoiceBody : Json :=
  Json.obj [("choices", Json.arr [Json.obj [("message",
    Json.obj [("content", Json.str "plain")])]])]

/-- Witness for `first_choice_extraction`: a body with one tool call on the
first choice and a second body with none. -/
theorem first_choice_extraction_witness :
    OpenAIJsonExtractor toolCallChoiceBody
      = ("c", some [⟨"call_123", "function",
          ⟨Json.null, "get_user_weather", "loc London"⟩⟩], none)
    ∧ OpenAIJsonExtractor plainChoiceBody = ("plain", none, none) :=
  ⟨(first_choice_extraction toolCallChoiceBody
      ⟨"", "", 0, "", "", [⟨0, ⟨"", "c", some [⟨"call_123", "function",
        ⟨Json.null, "get_user_weather", "loc London"⟩⟩]⟩, Json.null, ""⟩], Usage.zero⟩
      ⟨0, ⟨"", "c", some [⟨"call_123", "function",
        ⟨Json.null, "get_user_weather", "loc London"⟩⟩]⟩, Json.null, ""⟩
      [] rfl rfl).1 _ rfl,
   (first_choice_extraction plainChoiceBody
      ⟨"", "", 0, "", "", [⟨0, ⟨"", "plain", none⟩, Json.null, ""⟩], Usage.zero⟩
      ⟨0, ⟨"", "plain", none⟩, Json.null, ""⟩ [] rfl rfl).2 rfl⟩

/-- C4: the outbound chat payload's message sequence is exactly the system
message with the unescaped base instruction, then the history verbatim,
then one message with the given role and the unescaped input message; and
the `tools` field appears in the serialized payload iff the supplied tool
collection is non-empty. -/
theorem chat_payload_assembly :
    ∀ (c : Adaptor) (attempts : Nat → Attempt Json) (msg role : String)
      (hist : List Message) (tools : Option (List Tool)),
      ((c.sendRequestWithHistory attempts msg role hist tools).1).messages
        = ⟨"system", c.unescape c.baseinstruct, none⟩ :: (hist ++ [⟨role, c.unescape msg, none⟩])
      ∧ (((c.sendRequestWithHistory attempts msg role hist tools).1).toolsSerialized = true
          ↔ tools.getD [] ≠ []) := by
  intro c attempts msg role hist tools
  have hfst : (c.sendRequestWithHistory attempts msg role hist tools).1
      = buildChatRequest c msg role hist tools := by
    unfold Adaptor.sendRequestWithHistory
    cases (sendWithRetry c.maxretries attempts).result <;> rfl
  rw [hfst]
  constructor
  · simp [buildChatRequest]
  · cases tools with
    | none => simp [buildChatRequest, AIRequest.toolsSerialized]
    | some ts => cases ts <;> simp [buildChatRequest, AIRequest.toolsSerialized]

/-- Helper: the loop that collects required parameter names appends them in
traversal order, i.e. it computes a `filterMap` over the supplied list. -/
theorem foldl_required_append (params : List ToolParameter) :
    ∀ acc : List String,
      params.foldl (fun acc p => if p.required then acc ++ [p.name] else acc) acc
        = acc ++ params.filterMap (fun p => if p.required then some p.name else none) := by
  induction params with
  | nil => intro acc; simp
  | cons p rest ih =>
    intro acc
    cases hp : p.required <;>
      simp [hp, ih, List.filterMap_cons, List.append_assoc]

/-- C9: a `Tool` built by `NewTool` from a name, a description and a
non-empty parameter list with at least one required parameter serializes
with a `required` array holding exactly the names of the parameters marked
required, in the order they were supplied. -/
theorem newTool_required_order :
    ∀ (name desc : String) (params : List ToolParameter),
      params ≠ [] → (∃ p ∈ params, p.required = true) →
      (NewTool name desc params).serializedRequired
        = some (params.filterMap (fun p => if p.required then some p.name else none)) := by
  intro name desc params hne hex
  obtain ⟨p, hp, hreq⟩ := hex
  have hlen : params.length > 0 := List.length_pos.mpr hne
  have hmem : p.name ∈ params.filterMap (fun q => if q.required then some q.name else none) :=
    List.mem_filterMap.mpr ⟨p, hp, by rw [hreq]; rfl⟩
  have hfl : params.filterMap (fun q => if q.required then some q.name else none) ≠ [] :=
    List.ne_nil_of_mem hmem
  unfold NewTool
  rw [if_pos hlen]
  unfold Tool.serializedRequired
  rw [foldl_required_append params []]
  simp only [List.nil_append]
  cases hval : params.filterMap (fun q => if q.required then some q.name else none) with
  | nil => exact absurd hval hfl
  | cons a l => rfl

/-- Witness for `newTool_required_order` at a two-parameter tool with one
required parameter. -/
theorem newTool_required_order_witness :
    (NewTool "get_current_weather" "Get the current weather"
      [⟨"location", "string", "city", true⟩,
       ⟨"unit", "string", "temperature unit", false⟩]).serializedRequired
      = some ["location"] :=
  newTool_required_order "get_current_weather" "Get the current weather"
    [⟨"location", "string", "city", true⟩, ⟨"unit", "string", "temperature unit", false⟩]
    (List.cons_ne_nil _ _)
    ⟨⟨"location", "string", "city", true⟩, List.mem_cons_self _ _, rfl⟩

/-- Helper: decoding the canonical encoding of a `QnAResponse` restores it
exactly — every field value is preserved. -/
theorem decodeQnAResponse_encode (r : QnAResponse) :
    decodeQnAResponse (encodeQnAResponse r) = Except.ok r := by
  obtain ⟨ans, sc, st, en⟩ := r
  simp [decodeQnAResponse, encodeQnAResponse, decodeStringField, decodeFloatField,
    decodeIntField, getField, decodeAnyField, Rat.den_intCast, Rat.num_intCast]
  rfl

/-- Helper: elementwise decoding of a list of encoded answers restores the
list exactly, in order. -/
theorem decodeElems_map_encode (rs : List QnAResponse) :
    decodeElems decodeQnAResponse (rs.map encodeQnAResponse) = Except.ok rs := by
  induction rs with
  | nil => rfl
  | cons r rest ih => simp [decodeElems, decodeQnAResponse_encode, ih]

/-- C8: a JSON array of answer objects decodes to exactly those answers
with all field values (answer, score, start, end) preserved; the empty
array yields an empty, non-error result; a JSON object instead of an
array, or a non-numeric score, is a decode error; and `SendQuestion`
returns the extractor's verdict on the 200 body verbatim, so those decode
errors fail the call. -/
theorem qna_decode_behaviour :
    (∀ rs : List QnAResponse,
      QnAJsonResponseExtractor (Json.arr (rs.map encodeQnAResponse)) = Except.ok rs)
    ∧ QnAJsonResponseExtractor (Json.arr []) = Except.ok []
    ∧ (∀ fields : List (String × Json),
      QnAJsonResponseExtractor (Json.obj fields)
        = Except.error "json: cannot unmarshal value into array of QnAResponse")
    ∧ (∀ (ans badscore : String) (st en : Rat),
      QnAJsonResponseExtractor (Json.arr [Json.obj [("answer", Json.str ans),
          ("score", Json.str badscore), ("start", Json.num st), ("end", Json.num en)]])
        = Except.error "json: cannot unmarshal value into float field score")
    ∧ (∀ (q : QnAAdaptor) (attempts : Nat → Attempt Json) ctx ques params (body : Json),
      q.extractor = QnAJsonResponseExtractor →
      (sendWithRetry q.maxretries attempts).result = Except.ok body →
      (q.SendQuestion attempts ctx ques params).2
        = QnAOutcome.ret (QnAJsonResponseExtractor body)) := by
  refine ⟨?_, rfl, fun _ => rfl, ?_, ?_⟩
  · intro rs
    simp [QnAJsonResponseExtractor, decodeElems_map_encode]
  · intro ans badscore st en
    rfl
  · intro q attempts ctx ques params body hex hs
    simp only [QnAAdaptor.SendQuestion, hs, hex]

/-- Witness for `qna_decode_behaviour`: the Paris example answer decodes
back exactly, and `SendQuestion` surfaces the decode error of an object
body. -/
theorem qna_decode_behaviour_witness :
    QnAJsonResponseExtractor
        (Json.arr [encodeQnAResponse ⟨"Paris", 19 / 20, 10, 14⟩])
      = Except.ok [⟨"Paris", 19 / 20, 10, 14⟩]
    ∧ ((⟨2, QnAJsonResponseExtractor⟩ : QnAAdaptor).SendQuestion
        (fun _ => Attempt.response 200 (Json.obj [("answer", Json.str "Paris")]))
        "ctx" "q" none).2
      = QnAOutcome.ret (QnAJsonResponseExtractor (Json.obj [("answer", Json.str "Paris")])) :=
  ⟨by
    have h := qna_decode_behaviour.1 [⟨"Paris", 19 / 20, 10, 14⟩]
    simpa using h,
   qna_decode_behaviour.2.2.2.2 ⟨2, QnAJsonResponseExtractor⟩
    (fun _ => Attempt.response 200 (Json.obj [("answer", Json.str "Paris")]))
    "ctx" "q" none (Json.obj [("answer", Json.str "Paris")]) rfl rfl⟩

end HfAdaptor
